import Mathlib

/-!
Verification of the icebase engine (an append-only analytical table service)
against its natural-language specification.

The development shallowly embeds the relevant parts of the Go sources:

* `src/src/log.go`    — the per-table log store (`Log.getDB`, `Log.Insert`,
  `Log.RecreateSchema`, `Log.RecreateAsView`);
* `src/src/icebase.go` — the query dispatcher (`IceBase.ExecuteQuery`,
  `IceBase.handleQuery`, `SplitNonEmptyQueries`, `IceBase.RequestHandler`);
* `src/src/main.go`   — the filesystem storage backend (`FSStorage.Write`,
  `FSStorage.Stat`, `bytesToETag`).

Pure functions become Lean functions; stateful code becomes explicit state
passing with the outcomes of external calls (the analytical engine, the log
database, the OS) supplied as explicit `Except` inputs.  Machine integers are
`Nat` with explicit `% 2 ^ 32` where overflow matters.  Bytes are `Nat`
values below 256 represented as `List Nat`.
-/

set_option maxRecDepth 10000

namespace Icebase

/-! ## Bytes and lowercase hex encoding

`encoding/hex.EncodeToString` and the hex core of `uuid.UUID.String`. -/

/-- Lowercase hexadecimal digit for a value below 16 (as in Go's
`encoding/hex`): `0`–`9` then `a`–`f`. -/
def hexDigitChar (n : Nat) : Char :=
  if n < 10 then Char.ofNat (48 + n) else Char.ofNat (87 + n)

/-- Two lowercase hex characters for one byte. -/
def byteHexChars (b : Nat) : List Char :=
  [hexDigitChar (b / 16 % 16), hexDigitChar (b % 16)]

/-- Hex characters of a byte list. -/
def bytesHexChars (l : List Nat) : List Char :=
  l.foldr (fun b acc => byteHexChars b ++ acc) []

/-- Lowercase hex string of a byte list, as `hex.EncodeToString` produces. -/
def bytesHex (l : List Nat) : String :=
  String.mk (bytesHexChars l)

/-! ## MD5 (RFC 1321)

`crypto/md5.Sum`, used by `bytesToETag` in `src/src/main.go`.  32-bit words
are `Nat` values kept below `2 ^ 32` by explicit reduction. -/

/-- Reduce to a 32-bit word. -/
def m32 (n : Nat) : Nat := n % 4294967296

/-- Rotate a 32-bit word left by `s` bits. -/
def rotl32 (x s : Nat) : Nat :=
  m32 ((x <<< s) ||| (x >>> (32 - s)))

/-- Bitwise complement of a 32-bit word. -/
def not32 (x : Nat) : Nat := x ^^^ 4294967295

/-- The 64 MD5 sine-derived constants `K[i] = floor(2^32 * |sin(i+1)|)`. -/
def md5K : List Nat :=
  [0xd76aa478, 0xe8c7b756, 0x242070db, 0xc1bdceee,
   0xf57c0faf, 0x4787c62a, 0xa8304613, 0xfd469501,
   0x698098d8, 0x8b44f7af, 0xffff5bb1, 0x895cd7be,
   0x6b901122, 0xfd987193, 0xa679438e, 0x49b40821,
   0xf61e2562, 0xc040b340, 0x265e5a51, 0xe9b6c7aa,
   0xd62f105d, 0x02441453, 0xd8a1e681, 0xe7d3fbc8,
   0x21e1cde6, 0xc33707d6, 0xf4d50d87, 0x455a14ed,
   0xa9e3e905, 0xfcefa3f8, 0x676f02d9, 0x8d2a4c8a,
   0xfffa3942, 0x8771f681, 0x6d9d6122, 0xfde5380c,
   0xa4beea44, 0x4bdecfa9, 0xf6bb4b60, 0xbebfbc70,
   0x289b7ec6, 0xeaa127fa, 0xd4ef3085, 0x04881d05,
   0xd9d4d039, 0xe6db99e5, 0x1fa27cf8, 0xc4ac5665,
   0xf4292244, 0x432aff97, 0xab9423a7, 0xfc93a039,
   0x655b59c3, 0x8f0ccc92, 0xffeff47d, 0x85845dd1,
   0x6fa87e4f, 0xfe2ce6e0, 0xa3014314, 0x4e0811a1,
   0xf7537e82, 0xbd3af235, 0x2ad7d2bb, 0xeb86d391]

/-- The 64 per-round left-rotation amounts. -/
def md5S : List Nat :=
  [7, 12, 17, 22, 7, 12, 17, 22, 7, 12, 17, 22, 7, 12, 17, 22,
   5, 9, 14, 20, 5, 9, 14, 20, 5, 9, 14, 20, 5, 9, 14, 20,
   4, 11, 16, 23, 4, 11, 16, 23, 4, 11, 16, 23, 4, 11, 16, 23,
   6, 10, 15, 21, 6, 10, 15, 21, 6, 10, 15, 21, 6, 10, 15, 21]

/-- The MD5 nonlinear function for round `i`. -/
def md5F (i b c d : Nat) : Nat :=
  if i < 16 then (b &&& c) ||| (not32 b &&& d)
  else if i < 32 then (d &&& b) ||| (not32 d &&& c)
  else if i < 48 then b ^^^ c ^^^ d
  else c ^^^ (b ||| not32 d)

/-- The message-word index used in round `i`. -/
def md5G (i : Nat) : Nat :=
  if i < 16 then i
  else if i < 32 then (5 * i + 1) % 16
  else if i < 48 then (3 * i + 5) % 16
  else (7 * i) % 16

/-- Little-endian 32-bit word from (up to) four bytes. -/
def leWord : List Nat → Nat
  | [] => 0
  | b :: t => b % 256 + 256 * leWord t

/-- The sixteen message words of a 64-byte block. -/
def md5Words (block : List Nat) : List Nat :=
  (List.range 16).map (fun i => leWord ((block.drop (4 * i)).take 4))

/-- One MD5 round on state `(a, b, c, d)`. -/
def md5Round (M : List Nat) (st : Nat × Nat × Nat × Nat) (i : Nat) :
    Nat × Nat × Nat × Nat :=
  match st with
  | (a, b, c, d) =>
    let f := m32 (md5F i b c d + a + md5K.getD i 0 + M.getD (md5G i) 0)
    (d, m32 (b + rotl32 f (md5S.getD i 0)), b, c)

/-- Process one 64-byte block. -/
def md5Block (st : Nat × Nat × Nat × Nat) (block : List Nat) :
    Nat × Nat × Nat × Nat :=
  match st, (List.range 64).foldl (md5Round (md5Words block)) st with
  | (a0, b0, c0, d0), (a, b, c, d) =>
    (m32 (a0 + a), m32 (b0 + b), m32 (c0 + c), m32 (d0 + d))

/-- Little-endian byte expansion of a word, `k` bytes. -/
def leBytes (k n : Nat) : List Nat :=
  (List.range k).map (fun i => n >>> (8 * i) % 256)

/-- MD5 padding: a `0x80` byte, zeros to 56 mod 64, then the 64-bit
little-endian bit length. -/
def md5Pad (msg : List Nat) : List Nat :=
  let padLen := (119 - msg.length % 64) % 64
  msg ++ 128 :: List.replicate padLen 0 ++ leBytes 8 (8 * msg.length % 2 ^ 64)

/-- Split into 64-byte blocks (structural recursion on a step counter that
the length bounds: every step consumes at least one byte). -/
def md5ChunksAux : Nat → List Nat → List (List Nat)
  | 0, _ => []
  | _ + 1, [] => []
  | n + 1, b :: t => ((b :: t).take 64) :: md5ChunksAux n ((b :: t).drop 64)

/-- Split into 64-byte blocks. -/
def md5Chunks (l : List Nat) : List (List Nat) :=
  md5ChunksAux l.length l

/-- The 16-byte MD5 digest of a byte list (`crypto/md5.Sum`). -/
def md5Bytes (msg : List Nat) : List Nat :=
  match (md5Chunks (md5Pad msg)).foldl md5Block
      (0x67452301, 0xefcdab89, 0x98badcfe, 0x10325476) with
  | (a, b, c, d) => leBytes 4 a ++ leBytes 4 b ++ leBytes 4 c ++ leBytes 4 d

/-- `bytesToETag` from `src/src/main.go`: the lowercase hex MD5 of the data. -/
def bytesToETag (data : List Nat) : String :=
  bytesHex (md5Bytes data)

/-! ## Ordering of log rows

Both `RecreateSchema` and `RecreateAsView` read `schema_log` with
`ORDER BY timestamp ASC`; the insert-log live set is ordered by `id`
descending.  The `ORDER BY` of the log database is modelled as an insertion
sort on the row list. -/

/-- `ORDER BY timestamp ASC` on rows keyed by a numeric timestamp. -/
def tsLE {α : Type} (a b : Nat × α) : Prop := a.1 ≤ b.1

instance {α : Type} : DecidableRel (@tsLE α) := fun a b => Nat.decLe a.1 b.1

instance {α : Type} : IsTotal (Nat × α) tsLE := ⟨fun a b => Nat.le_total a.1 b.1⟩

instance {α : Type} : IsTrans (Nat × α) tsLE := ⟨fun _ _ _ => Nat.le_trans⟩

/-- The rows of a log table sorted by ascending timestamp. -/
def orderByTimestampAsc {α : Type} (rows : List (Nat × α)) : List (Nat × α) :=
  List.insertionSort tsLE rows

/-! ## Storage paths (`Log.getDB`, `Log.Insert` in `src/src/log.go`)

`getDB` computes `filepath.Join("storage", tableName, "log")` and appends
`log.db`; `Insert` computes `filepath.Join("storage", table, "data")` and
appends `<uuid>.parquet`.  For the clean relative names used here,
`filepath.Join` is string concatenation with `/`. -/

/-- `filepath.Join` on clean, non-empty relative components. -/
def joinPath (a b : String) : String := a ++ "/" ++ b

/-- The log-database path built by `Log.getDB`: note the hard-coded
`storage` root. -/
def logDBPath (tableName : String) : String :=
  joinPath (joinPath (joinPath "storage" tableName) "log") "log.db"

/-- The data directory built by `Log.Insert`. -/
def dataDir (table : String) : String :=
  joinPath (joinPath "storage" table) "data"

/-- The parquet-file path built by `Log.Insert`. -/
def parquetPath (table uuidStr : String) : String :=
  joinPath (dataDir table) (uuidStr ++ ".parquet")

/-- The default storage directory configured by `NewIceBase`
(`icebase.go`, `storageDir: "icebase_tables"`). -/
def defaultStorageDir : String := "icebase_tables"

/-- The layout the spec prescribes (for the refinement comparison):
`<root>/<table>/log/log.db`. -/
def specLogDBPath (root table : String) : String :=
  root ++ "/" ++ table ++ "/log/log.db"

/-- The layout the spec prescribes (for the refinement comparison):
`<root>/<table>/data/<uuid>.parquet`. -/
def specParquetPath (root table uuidStr : String) : String :=
  root ++ "/" ++ table ++ "/data/" ++ uuidStr ++ ".parquet"

/-- Whether the first character list leads the second (string prefix test,
spelled out structurally so that concrete instances evaluate). -/
def leadsWith : List Char → List Char → Bool
  | [], _ => true
  | _ :: _, [] => false
  | a :: as, b :: bs => a = b && leadsWith as bs

/-! ## The insert log and `Log.Insert` (`src/src/log.go`)

`insert_log` rows as created by `getDB`'s DDL.  `Log.Insert` runs five
external steps in order; each step's outcome is an explicit input.  The
insert-log writes go through the log database's own connection in
autocommit mode, so a row is durable the moment step 1 returns; the files
written by `COPY ... TO` are on disk the moment the copy returns.  Rolling
back the dispatcher's analytical (in-memory) transaction touches neither. -/

/-- A row of `insert_log`. -/
structure InsertRow where
  id : String
  part : String
  tombstonedUnixTime : Nat
  size : Nat
deriving DecidableEq

/-- Outcomes of the five external calls made by `Log.Insert`, in program
order: the `INSERT ... RETURNING id` on the log database, `os.MkdirAll`,
the `COPY ... TO ... (FORMAT PARQUET)` on the analytical transaction,
`os.Stat`, and the `UPDATE insert_log SET size` on the log database. -/
structure InsertStepOutcomes where
  newRowId : Except String String
  mkdirResult : Except String Unit
  copyResult : Except String Unit
  statResult : Except String Nat
  updateResult : Except String Unit

/-- The `UPDATE insert_log SET size = ? WHERE id = ?` statement. -/
def updateRowSize (rows : List InsertRow) (uuidStr : String) (sz : Nat) :
    List InsertRow :=
  rows.map (fun r => if r.id = uuidStr then { r with size := sz } else r)

/-- `Log.Insert`: state is the committed `insert_log` row list together with
the set of parquet files on disk; the result is the function's error value. -/
def LogInsert (insertLog : List InsertRow) (files : List String)
    (table : String) (o : InsertStepOutcomes) :
    (List InsertRow × List String) × Except String Unit :=
  match o.newRowId with
  | .error e => ((insertLog, files), .error ("failed to insert into insert_log: " ++ e))
  | .ok uuidStr =>
    let insertLog := insertLog ++ [⟨uuidStr, "", 0, 0⟩]
    match o.mkdirResult with
    | .error e => ((insertLog, files), .error ("failed to create data directory: " ++ e))
    | .ok _ =>
      match o.copyResult with
      | .error e => ((insertLog, files), .error ("failed to copy to parquet: " ++ e))
      | .ok _ =>
        let files := files ++ [parquetPath table uuidStr]
        match o.statResult with
        | .error e => ((insertLog, files), .error ("failed to get parquet file size: " ++ e))
        | .ok sz =>
          match o.updateResult with
          | .error e => ((insertLog, files), .error ("failed to update insert_log size: " ++ e))
          | .ok _ => ((updateRowSize insertLog uuidStr sz, files), .ok ())

/-- The dispatcher's deferred `dataTx.Rollback()` (`icebase.go`): it rolls
back only the in-memory analytical transaction.  The log database has its
own connection (its writes above are already committed) and parquet files
written by `COPY ... TO` stay on disk, so the durable state is unchanged. -/
def rollbackDataTx (s : List InsertRow × List String) :
    List InsertRow × List String := s

/-- The invariant claimed for `Log.Insert` failures: every committed
`insert_log` row has its parquet file on disk. -/
def orphanFree (insertLog : List InsertRow) (files : List String)
    (table : String) : Prop :=
  ∀ r ∈ insertLog, parquetPath table r.id ∈ files

/-! ## Schema replay: `Log.RecreateSchema` (`src/src/log.go`)

`schema_log` rows are `(timestamp, raw_query)` pairs; the function reads
them `ORDER BY timestamp ASC` and executes each `raw_query` against the
supplied analytical transaction.  The transaction is modelled as the list
of statements successfully executed in it; the engine's verdict on each
statement is the `exec` input. -/

/-- The row loop of `RecreateSchema`: execute each raw query in order,
stopping at the first engine error. -/
def replaySchemaRows (exec : String → Except String Unit) :
    List (Nat × String) → List String → Except String (List String)
  | [], tx => .ok tx
  | e :: rest, tx =>
    match exec e.2 with
    | .error m => .error ("failed to execute schema_log query: " ++ m)
    | .ok _ => replaySchemaRows exec rest (tx ++ [e.2])

/-- `Log.RecreateSchema`: replay `schema_log` in ascending timestamp order
against the transaction. -/
def RecreateSchema (exec : String → Except String Unit)
    (schemaLog : List (Nat × String)) (tx : List String) :
    Except String (List String) :=
  replaySchemaRows exec (orderByTimestampAsc schemaLog) tx

/-! ## The view builder: `Log.RecreateAsView` (`src/src/log.go`)

The DDL text stored in `schema_log` is modelled in parsed form (the
sources only ever store `CREATE TABLE` statements there), and the object a
statement produces in the analytical transaction is modelled as a
`TxTable`: whether it is a view, its columns, and the rows a
`SELECT *` on it yields. -/

/-- A `schema_log` DDL event in parsed form. -/
inductive DDLStmt
  | createTable (table : String) (cols : List String)
deriving DecidableEq

/-- What the analytical object produced in the transaction looks like. -/
structure TxTable where
  isView : Bool
  cols : List String
  contents : List (List String)
deriving DecidableEq

/-- Executing a raw `CREATE TABLE` statement in the analytical transaction
produces an empty base table. -/
def execDDL (d : DDLStmt) : TxTable :=
  match d with
  | .createTable _ cols => ⟨false, cols, []⟩

/-- `Log.RecreateAsView`: reads `schema_log` ordered by timestamp, executes
the first raw statement against the transaction as-is, and `break`s.  It
never consults `insert_log` and never builds a `read_parquet` view. -/
def RecreateAsView (schemaLog : List (Nat × DDLStmt)) : Option TxTable :=
  match orderByTimestampAsc schemaLog with
  | [] => none
  | e :: _ => some (execDDL e.2)

/-- `ORDER BY id DESC` on the live rows of `insert_log` (tombstone = 0). -/
def idDescRel (a b : InsertRow) : Prop := b.id ≤ a.id

instance : DecidableRel idDescRel :=
  fun a b => inferInstanceAs (Decidable (b.id ≤ a.id))

/-- The live rows of `insert_log` ordered by `id` descending. -/
def liveRowsIdDesc (insertLog : List InsertRow) : List InsertRow :=
  List.insertionSort idDescRel
    (insertLog.filter (fun r => r.tombstonedUnixTime = 0))

/-- The rows stored in a parquet file on disk (empty for a missing file). -/
def lookupStore (store : List (String × List (List String))) (p : String) :
    List (List String) :=
  match store.find? (fun kv => kv.1 = p) with
  | some kv => kv.2
  | none => []

/-- Modelled from the spec: the table view builder (spec §4.4; the
dispatcher's `CreateViewOfParquet` is absent from the sources, where only
the stale `RecreateAsView` stands in for it).  Per the spec it produces,
inside the supplied transaction, a read-only view that evaluates as
`SELECT * FROM read_parquet([f1..fn])` with `f1..fn` the live
`insert_log` rows (tombstone = 0) ordered by `id` descending; when the
live set is empty the view is still created and yields zero rows. -/
def buildViewSpec (schemaLog : List (Nat × DDLStmt))
    (insertLog : List InsertRow) (table : String)
    (store : List (String × List (List String))) : Option TxTable :=
  match orderByTimestampAsc schemaLog with
  | [] => none
  | e :: _ =>
    match e.2 with
    | .createTable _ cols =>
      some ⟨true, cols,
        ((liveRowsIdDesc insertLog).map
          (fun r => lookupStore store (parquetPath table r.id))).flatten⟩

/-! ## The filesystem storage backend (`src/src/main.go`)

`FSStorage` is modelled at the level of the paths it receives: the
filesystem is an association list from path to content bytes.
`os.WriteFile` (with the create-directories retry) is modelled as the
always-succeeding map update; `FSStorage.Stat` computes the ETag as the MD5
of the current content, exactly as the code does via `bytesToETag`. -/

/-- A filesystem: paths mapped to content bytes. -/
abbrev FileSys := List (String × List Nat)

/-- Content of the object stored at a path. -/
def lookupFile : FileSys → String → Option (List Nat)
  | [], _ => none
  | kv :: rest, p => if kv.1 = p then some kv.2 else lookupFile rest p

/-- `os.WriteFile`: create or replace the object at a path. -/
def writeFile : FileSys → String → List Nat → FileSys
  | [], p, data => [(p, data)]
  | kv :: rest, p, data =>
    if kv.1 = p then (p, data) :: rest else kv :: writeFile rest p data

/-- The stat result `FSStorage.Stat` builds for a file: its size and the
MD5 ETag of its current content. -/
structure StatInfo where
  size : Nat
  etag : String
deriving DecidableEq

/-- `FSStorage.Stat` on a file path: `os.Stat` plus the MD5 of the content
(directories aside, which never carry an ETag). -/
def FSStat (fs : FileSys) (p : String) : Option StatInfo :=
  (lookupFile fs p).map (fun c => ⟨c.length, bytesToETag c⟩)

/-- `FSStorage.Write`: `ifMatch` is the `writeConfig.etag` field, whose Go
zero value `""` means that no `WithIfMatch` option was supplied.  The
result pairs the function's error value with the filesystem afterwards. -/
def FSWrite (fs : FileSys) (p : String) (data : List Nat) (ifMatch : String) :
    Except String Unit × FileSys :=
  if ifMatch ≠ "" then
    match FSStat fs p with
    | none =>
      (.error ("failed to check etag, " ++ p ++ " does not exist"), fs)
    | some fi =>
      if fi.etag ≠ ifMatch then
        (.error ("IfMatch: ETag mismatch (current: " ++ fi.etag ++ ")"), fs)
      else
        (.ok (), writeFile fs p data)
  else
    (.ok (), writeFile fs p data)

/-! ## Result serialisation and `IceBase.ExecuteQuery` (`src/src/icebase.go`)

A scanned cell is `nil`, a byte blob (as the driver yields for `UUID`
columns), or some other driver value carried together with the string that
Go's `fmt.Sprintf("%v", ...)` renders it as — the "default string form" of
the engine value, which is outside this model.  `encoding/json` output is
modelled as a JSON value tree; note that `json.Marshal` renders a nil Go
slice as `null` and a non-nil empty slice as `[]`, which the `data` model
keeps apart with `Option`: `none` is the nil slice. -/

/-- A JSON value, as far as `encoding/json` output needs modelling. -/
inductive Json
  | null
  | str (s : String)
  | num (n : Nat)
  | arr (l : List Json)
  | obj (fields : List (String × Json))

/-- A cell value scanned from the driver. -/
inductive CellValue
  | null
  | bytes (b : List Nat) (defaultForm : String)
  | plain (defaultForm : String)
deriving DecidableEq

/-- `uuid.UUID(v).String()`: the canonical hyphenated lowercase-hex
rendering of a 16-byte UUID (byte groups 4-2-2-2-6). -/
def uuidCanonical (b : List Nat) : String :=
  String.mk (bytesHexChars (b.take 4) ++ '-' ::
    (bytesHexChars ((b.drop 4).take 2) ++ '-' ::
      (bytesHexChars ((b.drop 6).take 2) ++ '-' ::
        (bytesHexChars ((b.drop 8).take 2) ++ '-' ::
          bytesHexChars (b.drop 10)))))

/-- The cell-rendering loop body of `ExecuteQuery` (`icebase.go` lines
130–147): `nil` becomes the string `NULL`; a byte blob in a column whose
driver type is `UUID` becomes the canonical UUID string (Go converts the
slice to a 16-byte array, taking the first 16 bytes and panicking on
shorter input — the claims only concern 16-byte values); everything else
becomes its `fmt.Sprintf("%v", ...)` form. -/
def serializeCell (colType : String) (v : CellValue) : String :=
  match v with
  | .null => "NULL"
  | .bytes b d => if colType = "UUID" then uuidCanonical (b.take 16) else d
  | .plain d => d

/-- One result row rendered against the column metadata
`(name, driver type)`. -/
def serializeRow (cols : List (String × String)) (row : List CellValue) :
    List String :=
  List.zipWith (fun c v => serializeCell c.2 v) cols row

/-- The response `ExecuteQuery` assembles: column metadata, the `data`
slice (`none` = Go nil slice), and `rows = len(data)`. -/
structure ExecResponse where
  meta : List (String × String)
  data : Option (List (List String))
  rows : Nat
deriving DecidableEq

/-- `IceBase.ExecuteQuery`, over the analytical engine's verdict on the
statement: either column metadata plus scanned rows, or an error.  The
response is initialised with a non-nil empty `Data` and empty `Meta`, but
line 156 (`response.Data = data`) overwrites `Data` with the local `data`
slice, which stays nil when no row was appended.  An engine error whose
text is exactly `empty query` is swallowed; any other error aborts. -/
def ExecuteQuery
    (outcome : Except String (List (String × String) × List (List CellValue))) :
    Except String ExecResponse :=
  match outcome with
  | .error e =>
    if e = "empty query" then .ok ⟨[], none, 0⟩
    else .error ("query error: " ++ e)
  | .ok (cols, rs) =>
    let d := rs.map (serializeRow cols)
    .ok ⟨cols, if rs.isEmpty then none else some d, d.length⟩

/-- `json.Marshal` of a `QueryResponse`, in struct field order; the
`statistics.elapsed` wall-clock float is outside the model.  A `data`
field holding a nil slice marshals as JSON `null`. -/
def marshalResponse (r : ExecResponse) : Json :=
  .obj [("meta", .arr (r.meta.map
          (fun c => .obj [("name", .str c.1), ("type", .str c.2)]))),
        ("data", match r.data with
          | none => .null
          | some d => .arr (d.map (fun row => .arr (row.map Json.str)))),
        ("rows", .num r.rows)]

/-- `json.Marshal` of the dispatcher's `*QueryResponse`: a nil pointer
(no statement ran) marshals as `null`. -/
def marshalOptResponse : Option ExecResponse → Json
  | none => .null
  | some r => marshalResponse r

/-! ## Query splitting: `SplitNonEmptyQueries` (`src/src/icebase.go`)

`strings.Split(body, ";")`, `strings.TrimSpace`, `strings.HasPrefix`
and `strings.SplitN(s, "\n", 2)` are modelled structurally on character
lists.  The recursive `separateComments` closure recurses on the text
after the first newline of a `--` comment; its recursion is expressed with
a step counter bounded by the text length (each step consumes at least one
character, exactly the reason the Go recursion terminates). -/

/-- The white space `strings.TrimSpace` removes, for ASCII input. -/
def isGoSpace (c : Char) : Bool :=
  c = ' ' || c = '\t' || c = '\n' || c = '\x0b' || c = '\x0c' || c = '\r'

/-- `strings.TrimSpace`. -/
def trimChars (l : List Char) : List Char :=
  ((l.dropWhile isGoSpace).reverse.dropWhile isGoSpace).reverse

/-- `strings.Split(body, ";")`. -/
def splitOnSemicolon (l : List Char) : List (List Char) :=
  l.foldr
    (fun c acc =>
      if c = ';' then [] :: acc
      else
        match acc with
        | h :: t => (c :: h) :: t
        | [] => [[c]])
    [[]]

/-- The `separateComments` closure: trim; drop empty pieces; pass
non-comments through whole; for a `--` comment emit the first line and
recurse on the remainder after the newline. -/
def sepCommentsFuel : Nat → List Char → List String
  | 0, _ => []
  | fuel + 1, s =>
    let t := trimChars s
    if t.isEmpty then []
    else if t.take 2 = ['-', '-'] then
      match t.dropWhile (fun c => c ≠ '\n') with
      | [] => [String.mk (t.takeWhile (fun c => c ≠ '\n'))]
      | _ :: tail =>
        String.mk (t.takeWhile (fun c => c ≠ '\n')) :: sepCommentsFuel fuel tail
    else [String.mk t]

/-- `separateComments` with its always-sufficient step budget. -/
def separateComments (s : List Char) : List String :=
  sepCommentsFuel (s.length + 1) s

/-- `SplitNonEmptyQueries`: split on `;`, then run each piece through
`separateComments`, concatenating in order. -/
def SplitNonEmptyQueries (body : String) : List String :=
  ((splitOnSemicolon body.data).map separateComments).flatten

/-! ## The dispatcher: `IceBase.handleQuery` (`src/src/icebase.go`)

The per-statement closure (transaction bracket, classification, schema or
view replay, execution, log emission) is a single external step here: the
`exec` input yields either the statement's `QueryResponse` or its
`handlerErr`.  The loop keeps the latest response, stops at the first
error (returning it with no body), and finally marshals the last
response — a nil `*QueryResponse` when no statement ran. -/

/-- The statement loop of `handleQuery`.  The first component records the
statements actually processed (the loop's execution trace); the second is
the Go function's outcome: the first `handlerErr`, or the final
`response`. -/
def handleQueryLoop (exec : String → Except String ExecResponse) :
    List String → Option ExecResponse →
    List String × Except String (Option ExecResponse)
  | [], resp => ([], .ok resp)
  | q :: rest, _ =>
    match exec q with
    | .error e => ([q], .error e)
    | .ok r =>
      let p := handleQueryLoop exec rest (some r)
      (q :: p.1, p.2)

/-- `IceBase.handleQuery`: split (or trim) the body, run the loop, marshal
the final response. -/
def handleQuery (splitting : Bool)
    (exec : String → Except String ExecResponse) (body : String) :
    Except String Json :=
  let qs := if splitting then SplitNonEmptyQueries body
            else [String.mk (trimChars body.data)]
  match (handleQueryLoop exec qs none).2 with
  | .error e => .error e
  | .ok resp => .ok (marshalOptResponse resp)

/-- The statements `handleQuery` actually processes, in order. -/
def handleQueryTrace (splitting : Bool)
    (exec : String → Except String ExecResponse) (body : String) :
    List String :=
  let qs := if splitting then SplitNonEmptyQueries body
            else [String.mk (trimChars body.data)]
  (handleQueryLoop exec qs none).1

/-! ## The HTTP surface: `IceBase.RequestHandler` (`src/src/icebase.go`)

The handler is modelled on the request fields it reads (method,
`Authorization` header, URL path, body) and the response it writes
(status code and body).  `http.Error` writes its message plus a newline;
a successful `/query` or `/parse` dispatch writes the JSON from
`PostEndpoint`, which the model takes as the `post` input (the method
value `ib.PostEndpoint`).  Reading the request body is modelled as always
succeeding.  Program order is kept: CORS headers, then the bearer-token
check, then the OPTIONS branch, then the method check, then dispatch. -/

/-- An HTTP request, reduced to the fields the handler reads. -/
structure HttpRequest where
  method : String
  authHeader : String
  urlPath : String
  body : String

/-- The body the handler writes: nothing, an `http.Error` text, or the
dispatcher's JSON. -/
inductive RespBody
  | empty
  | text (s : String)
  | json (j : Json)

/-- The response the handler writes. -/
structure HttpResponse where
  status : Nat
  body : RespBody

/-- `IceBase.RequestHandler`, for a configured bearer token (the
`BEARER_TOKEN` environment value, `""` when unset) and the endpoint
dispatcher `post`. -/
def RequestHandler (authToken : String)
    (post : String → String → Except String Json) (r : HttpRequest) :
    HttpResponse :=
  if authToken ≠ "" ∧ r.authHeader ≠ "Bearer " ++ authToken then
    ⟨401, .text "Unauthorized\n"⟩
  else if r.method = "OPTIONS" then
    ⟨200, .empty⟩
  else if r.method ≠ "POST" then
    ⟨405, .text "Method not allowed\n"⟩
  else
    match post r.urlPath r.body with
    | .error e => ⟨400, .text (e ++ "\n")⟩
    | .ok j => ⟨200, .json j⟩

/-! ## Theorems

The lemmas and the one theorem (plus witness or counterexample where
required) settling each claim, in claim order where applicable. -/

theorem bytesHexChars_length (l : List Nat) :
    (bytesHexChars l).length = 2 * l.length := by
  induction l with
  | nil => rfl
  | cons b t ih =>
    simp [bytesHexChars, byteHexChars] at ih ⊢
    omega

/-- C1: "For every INSERT statement handled by Log.Insert, a failure at any
step (the insert_log write, the COPY to parquet, or the stat of the
resulting file) leaves no insert_log row committed in log.db without a
corresponding parquet file on disk: either the row was never committed, or
it is removed when the analytical transaction is rolled back."  The code
violates this: `Log.Insert` commits the `insert_log` row on the log
database's own connection *before* the COPY, and no failure path deletes
it; rolling back the dispatcher's analytical transaction cannot remove it.
Evaluating the embedded `Log.Insert` at a run whose COPY step fails shows
the committed row surviving with no parquet file on disk. -/
theorem LogInsert_copy_failure_leaves_orphan_row :
    LogInsert [] [] "t" ⟨.ok "u1", .ok (), .error "copy failed", .ok 0, .ok ()⟩
      = (([⟨"u1", "", 0, 0⟩], []), .error "failed to copy to parquet: copy failed")
    ∧ rollbackDataTx ([⟨"u1", "", 0, 0⟩], []) = ([⟨"u1", "", 0, 0⟩], [])
    ∧ ¬ orphanFree [⟨"u1", "", 0, 0⟩] [] "t" := by
  refine ⟨rfl, rfl, fun h => ?_⟩
  exact absurd (h ⟨"u1", "", 0, 0⟩ (by simp)) (by simp)

/-- C2: "For every table, the view builder produces inside the supplied
analytical transaction a view equivalent to SELECT * FROM
read_parquet([f1..fn]) where {f1..fn} is exactly the set of insert_log rows
with tombstoned_unix_time = 0, ordered by id descending; when that live set
is empty the view is still created and yields zero rows."  The code
violates this: `Log.RecreateAsView` executes the first `schema_log`
statement verbatim (a `CREATE TABLE`, producing an empty base table) and
stops; it never consults `insert_log` and never creates a `read_parquet`
view, contradicting its own doc comment.  With one live parquet file
holding one row, the code yields an empty base table where the specified
builder yields a view with that row. -/
theorem RecreateAsView_creates_table_not_parquet_view :
    RecreateAsView [(1, .createTable "t" ["id"])] = some ⟨false, ["id"], []⟩
    ∧ buildViewSpec [(1, .createTable "t" ["id"])] [⟨"u1", "", 0, 9⟩] "t"
        [(parquetPath "t" "u1", [["42"]])] = some ⟨true, ["id"], [["42"]]⟩
    ∧ RecreateAsView [(1, .createTable "t" ["id"])]
        ≠ buildViewSpec [(1, .createTable "t" ["id"])] [⟨"u1", "", 0, 9⟩] "t"
            [(parquetPath "t" "u1", [["42"]])] := by
  refine ⟨rfl, rfl, by decide⟩

/-- C3: "For every table name T, the engine persists T's log database at
<root>/T/log/log.db and T's data files at <root>/T/data/<uuid>.parquet,
where <root> is the configured storage directory (default icebase_tables);
no table state is written outside the configured root."  The code violates
this: `Log.getDB` and `Log.Insert` build both paths under the hard-coded
directory `storage`, ignoring the configured root that `NewIceBase`
defaults to `icebase_tables` (and that `icebase.go` intends to pass to the
log).  At table `events` the code's paths differ from the specified ones
and do not lie under the configured root. -/
theorem log_paths_use_hardcoded_storage_root :
    logDBPath "events" = "storage/events/log/log.db"
    ∧ parquetPath "events" "u1" = "storage/events/data/u1.parquet"
    ∧ specLogDBPath defaultStorageDir "events"
        = "icebase_tables/events/log/log.db"
    ∧ specParquetPath defaultStorageDir "events" "u1"
        = "icebase_tables/events/data/u1.parquet"
    ∧ logDBPath "events" ≠ specLogDBPath defaultStorageDir "events"
    ∧ leadsWith (defaultStorageDir ++ "/").data (logDBPath "events").data
        = false :=
  ⟨rfl, rfl, rfl, rfl, by decide, by decide⟩

/-- The row loop of `RecreateSchema` appends exactly the raw queries of the
rows it is given, in their order, when every engine call succeeds. -/
theorem replaySchemaRows_ok (exec : String → Except String Unit) :
    ∀ (rows : List (Nat × String)) (tx tx' : List String),
      replaySchemaRows exec rows tx = .ok tx' →
      tx' = tx ++ rows.map Prod.snd := by
  intro rows
  induction rows with
  | nil =>
    intro tx tx' h
    simp only [replaySchemaRows, Except.ok.injEq] at h
    simp [h]
  | cons e rest ih =>
    intro tx tx' h
    simp only [replaySchemaRows] at h
    cases hx : exec e.2 with
    | error m => rw [hx] at h; exact absurd h (by simp)
    | ok _ =>
      rw [hx] at h
      have := ih (tx ++ [e.2]) tx' h
      simp [this]

/-- C6: "Replaying the schema log executes every raw_query stored in
schema_log, in ascending timestamp order, against the supplied transaction,
and after it succeeds the transaction contains all table definitions for
that logical table."  Confirmed: on success the transaction has executed
exactly the raw queries of `schema_log` sorted by ascending timestamp (a
sorted permutation of the log), appended in that order, so every stored
definition is in the transaction. -/
theorem RecreateSchema_replays_all_in_order
    (exec : String → Except String Unit)
    (schemaLog : List (Nat × String)) (tx tx' : List String)
    (h : RecreateSchema exec schemaLog tx = .ok tx') :
    tx' = tx ++ (orderByTimestampAsc schemaLog).map Prod.snd
    ∧ (orderByTimestampAsc schemaLog).Sorted tsLE
    ∧ (orderByTimestampAsc schemaLog).Perm schemaLog
    ∧ ∀ e ∈ schemaLog, e.2 ∈ tx' := by
  have hperm : (orderByTimestampAsc schemaLog).Perm schemaLog :=
    List.perm_insertionSort tsLE schemaLog
  have heq := replaySchemaRows_ok exec (orderByTimestampAsc schemaLog) tx tx' h
  refine ⟨heq, List.sorted_insertionSort tsLE schemaLog, hperm, ?_⟩
  intro e he
  have hmem : e ∈ orderByTimestampAsc schemaLog := hperm.mem_iff.mpr he
  rw [heq]
  exact List.mem_append_right tx (List.mem_map_of_mem Prod.snd hmem)

/-- Witness for C6 at a concrete two-row schema log whose rows arrive out
of timestamp order. -/
theorem RecreateSchema_replays_all_in_order_witness :
    (["A", "B"] : List String)
        = [] ++ (orderByTimestampAsc [(2, "B"), (1, "A")]).map Prod.snd
    ∧ (orderByTimestampAsc [(2, "B"), (1, "A")]).Sorted tsLE
    ∧ (orderByTimestampAsc [(2, "B"), (1, "A")]).Perm [(2, "B"), (1, "A")]
    ∧ ∀ e ∈ [(2, "B"), (1, "A")], e.2 ∈ (["A", "B"] : List String) :=
  RecreateSchema_replays_all_in_order (fun _ => .ok ()) [(2, "B"), (1, "A")]
    [] ["A", "B"] rfl

/-- C5: "For every path p and etag e, a storage write of data to p with
if_match=e succeeds exactly when the stored object currently exists with
ETag equal to e; when the ETag differs the write fails with a
precondition-failed error and the object's stored content is unchanged (on
the filesystem backend the ETag is the MD5 of the current content)."
Confirmed, with `e ≠ ""` encoding that `if_match` was actually supplied
(the Go option record cannot distinguish an empty `if_match` from an
absent one). -/
theorem FSWrite_ifMatch_semantics (fs : FileSys) (p : String)
    (data : List Nat) (e : String) (he : e ≠ "") :
    ((FSWrite fs p data e).1 = .ok ()
      ↔ ∃ c, lookupFile fs p = some c ∧ bytesToETag c = e)
    ∧ ((FSWrite fs p data e).1 = .ok ()
        → (FSWrite fs p data e).2 = writeFile fs p data)
    ∧ (∀ c, lookupFile fs p = some c → bytesToETag c ≠ e →
        FSWrite fs p data e
          = (.error ("IfMatch: ETag mismatch (current: " ++ bytesToETag c ++ ")"),
             fs)) := by
  cases hc : lookupFile fs p with
  | none =>
    have hw : FSWrite fs p data e
        = (.error ("failed to check etag, " ++ p ++ " does not exist"), fs) := by
      simp [FSWrite, FSStat, hc, he]
    refine ⟨⟨fun h => ?_, fun h => ?_⟩, fun h => ?_, fun c hc' _ => ?_⟩
    · rw [hw] at h; exact absurd h (by simp)
    · obtain ⟨c, hc', _⟩ := h
      exact Option.noConfusion hc'
    · rw [hw] at h; exact absurd h (by simp)
    · exact Option.noConfusion hc'
  | some c =>
    by_cases hm : bytesToETag c = e
    · have hw : FSWrite fs p data e = (.ok (), writeFile fs p data) := by
        simp [FSWrite, FSStat, hc, he, hm]
      refine ⟨⟨fun _ => ⟨c, rfl, hm⟩, fun _ => by rw [hw]⟩,
        fun _ => by rw [hw], fun c' hc' hm' => ?_⟩
      obtain rfl := Option.some.inj hc'
      exact absurd hm hm'
    · have hw : FSWrite fs p data e
          = (.error ("IfMatch: ETag mismatch (current: " ++ bytesToETag c ++ ")"),
             fs) := by
        simp [FSWrite, FSStat, hc, he, hm]
      refine ⟨⟨fun h => ?_, fun h => ?_⟩, fun h => ?_, fun c' hc' _ => ?_⟩
      · rw [hw] at h; exact absurd h (by simp)
      · obtain ⟨c', hc', he'⟩ := h
        obtain rfl := Option.some.inj hc'
        exact absurd he' hm
      · rw [hw] at h; exact absurd h (by simp)
      · obtain rfl := Option.some.inj hc'
        exact hw

/-- Witness for C5: after storing content `[97]` at `p`, a conditional
write with the stored MD5 ETag succeeds, and one with a stale ETag fails
with the mismatch error and leaves the filesystem unchanged. -/
theorem FSWrite_ifMatch_semantics_witness :
    (FSWrite [("p", [97])] "p" [98] (bytesToETag [97])).1 = .ok ()
    ∧ FSWrite [("p", [97])] "p" [98] "stale"
        = (.error ("IfMatch: ETag mismatch (current: " ++ bytesToETag [97] ++ ")"),
           [("p", [97])]) := by
  constructor
  · exact (FSWrite_ifMatch_semantics [("p", [97])] "p" [98] (bytesToETag [97])
      (by decide)).1.mpr ⟨[97], rfl, rfl⟩
  · exact (FSWrite_ifMatch_semantics [("p", [97])] "p" [98] "stale"
      (by decide)).2.2 [97] rfl (by decide)

/-- C4: "For every statement that executes successfully and produces zero
result rows, the JSON response body contains a data field that is an empty
JSON array (never JSON null), together with well-formed meta, rows and
statistics fields."  The code violates this: although `ExecuteQuery`
initialises `Data` to a non-nil empty slice (lines 78–80, with comments
"Always initialized as []" and "Ensure Data is never nil"), line 156
overwrites it with the local `data` slice, which is still nil when the
statement produced no rows, and `json.Marshal` renders a nil slice as
`null`.  Evaluating the embedding at a successful zero-row statement shows
the marshalled `data` field is JSON `null`, not `[]`. -/
theorem executeQuery_zero_rows_marshals_data_null :
    ExecuteQuery (.ok ([("one", "INTEGER")], []))
      = .ok ⟨[("one", "INTEGER")], none, 0⟩
    ∧ marshalResponse ⟨[("one", "INTEGER")], none, 0⟩
        = .obj [("meta", .arr [.obj [("name", .str "one"),
                                     ("type", .str "INTEGER")]]),
                ("data", .null), ("rows", .num 0)]
    ∧ Json.null ≠ Json.arr [] :=
  ⟨rfl, rfl, fun h => Json.noConfusion h⟩

/-- C9: "In every query response, a NULL cell is serialised as the string
\"NULL\", a cell of column type UUID is serialised as the canonical
hyphenated UUID string, and every other cell is serialised as the engine
value's default string form."  Confirmed: the rendering `ExecuteQuery`
applies to every cell maps `nil` to `NULL`, a 16-byte blob in a `UUID`
column to the canonical 36-character hyphenated string, and any other
value to its default string form. -/
theorem query_cell_serialization (t : String) (b : List Nat) (d : String)
    (hb : b.length = 16) :
    serializeCell t .null = "NULL"
    ∧ serializeCell "UUID" (.bytes b d) = uuidCanonical b
    ∧ (uuidCanonical b).length = 36
    ∧ (t ≠ "UUID" → serializeCell t (.bytes b d) = d)
    ∧ serializeCell t (.plain d) = d
    ∧ (∀ cols rows resp, ExecuteQuery (.ok (cols, rows)) = .ok resp →
        resp.data
          = if rows = [] then none else some (rows.map (serializeRow cols))) := by
  have htake : b.take 16 = b := List.take_of_length_le (le_of_eq hb)
  refine ⟨rfl, ?_, ?_, fun ht => ?_, rfl, fun cols rows resp h => ?_⟩
  · simp [serializeCell, htake]
  · show (bytesHexChars (b.take 4) ++ '-' :: _).length = 36
    simp [List.length_append, bytesHexChars_length, List.length_take,
      List.length_drop, hb]
  · simp [serializeCell, ht]
  · have hresp : resp
        = ⟨cols, if rows.isEmpty then none
                 else some (rows.map (serializeRow cols)),
           (rows.map (serializeRow cols)).length⟩ :=
      (Except.ok.inj h).symm
    rw [hresp]
    cases rows <;> simp

/-- Witness for C9 at the all-zero 16-byte UUID in a `VARCHAR` column
context. -/
theorem query_cell_serialization_witness :
    serializeCell "VARCHAR" .null = "NULL"
    ∧ serializeCell "UUID" (.bytes (List.replicate 16 0) "dflt")
        = uuidCanonical (List.replicate 16 0)
    ∧ (uuidCanonical (List.replicate 16 0)).length = 36
    ∧ ("VARCHAR" ≠ "UUID"
        → serializeCell "VARCHAR" (.bytes (List.replicate 16 0) "dflt") = "dflt")
    ∧ serializeCell "VARCHAR" (.plain "dflt") = "dflt"
    ∧ (∀ cols rows resp, ExecuteQuery (.ok (cols, rows)) = .ok resp →
        resp.data
          = if rows = [] then none else some (rows.map (serializeRow cols))) :=
  query_cell_serialization "VARCHAR" (List.replicate 16 0) "dflt" (by decide)

/-- `dropWhile` never lengthens a list. -/
theorem dropWhile_length_le {α : Type} (p : α → Bool) :
    ∀ l : List α, (l.dropWhile p).length ≤ l.length := by
  intro l
  induction l with
  | nil => simp
  | cons a t ih =>
    by_cases h : p a
    · rw [List.dropWhile_cons_of_pos h]; exact Nat.le_succ_of_le ih
    · rw [List.dropWhile_cons_of_neg h]

/-- Trimming never lengthens the text. -/
theorem trimChars_length_le (l : List Char) : (trimChars l).length ≤ l.length := by
  unfold trimChars
  rw [List.length_reverse]
  calc ((l.dropWhile isGoSpace).reverse.dropWhile isGoSpace).length
      ≤ (l.dropWhile isGoSpace).reverse.length := dropWhile_length_le _ _
    _ = (l.dropWhile isGoSpace).length := List.length_reverse _
    _ ≤ l.length := dropWhile_length_le _ _

/-- The step budget of `sepCommentsFuel` is irrelevant once it exceeds the
text length: every recursive step consumes at least one character. -/
theorem sepCommentsFuel_congr : ∀ (f g : Nat) (s : List Char),
    s.length < f → s.length < g → sepCommentsFuel f s = sepCommentsFuel g s := by
  intro f
  induction f with
  | zero => intro g s hf _; omega
  | succ f' ih =>
    intro g s hf hg
    cases g with
    | zero => omega
    | succ g' =>
      simp only [sepCommentsFuel]
      by_cases hemp : (trimChars s).isEmpty
      · rw [if_pos hemp, if_pos hemp]
      · rw [if_neg hemp, if_neg hemp]
        by_cases hcom : (trimChars s).take 2 = ['-', '-']
        · rw [if_pos hcom, if_pos hcom]
          cases hdrop : (trimChars s).dropWhile (fun c => c ≠ '\n') with
          | nil => rfl
          | cons c tail =>
            have h1 : (c :: tail).length ≤ (trimChars s).length := by
              rw [← hdrop]; exact dropWhile_length_le _ _
            have h2 := trimChars_length_le s
            have htail : tail.length < s.length := by simp at h1; omega
            exact congrArg
              (fun x => String.mk ((trimChars s).takeWhile (fun c => c ≠ '\n')) :: x)
              (ih g' tail (by omega) (by omega))
        · rw [if_neg hcom, if_neg hcom]

/-- `separateComments` computes the Go recursion: any sufficient budget
gives the same result as the canonical one. -/
theorem separateComments_eq_fuel (f : Nat) (s : List Char)
    (hf : s.length < f) : sepCommentsFuel f s = separateComments s :=
  sepCommentsFuel_congr f (s.length + 1) s hf (Nat.lt_succ_self _)

/-- If the first engine error in the statement list is at position `i`,
the loop processes exactly the first `i + 1` statements and returns that
error. -/
theorem handleQueryLoop_first_error
    (exec : String → Except String ExecResponse) :
    ∀ (qs : List String) (i : Nat) (q0 e : String)
      (acc : Option ExecResponse),
      qs[i]? = some q0 →
      (∀ qj ∈ qs.take i, (exec qj).isOk) →
      exec q0 = .error e →
      handleQueryLoop exec qs acc = (qs.take (i + 1), .error e) := by
  intro qs
  induction qs with
  | nil => intro i q0 e acc h _ _; simp at h
  | cons q rest ih =>
    intro i q0 e acc h hprev herr
    cases i with
    | zero =>
      rw [List.getElem?_cons_zero, Option.some.injEq] at h
      subst h
      simp [handleQueryLoop, herr]
    | succ i' =>
      rw [List.getElem?_cons_succ] at h
      have hq : (exec q).isOk := hprev q (by simp)
      cases hx : exec q with
      | error m => rw [hx] at hq; exact absurd hq (by simp [Except.isOk, Except.toBool])
      | ok r =>
        have hrest := ih i' q0 e (some r) h
          (fun qj hm => hprev qj (by simp [hm])) herr
        simp [handleQueryLoop, hx, hrest]

/-- If every statement succeeds, the loop processes the whole list and
ends with the response of the last statement. -/
theorem handleQueryLoop_all_ok
    (exec : String → Except String ExecResponse) :
    ∀ (qs : List String) (acc : Option ExecResponse) (qlast : String)
      (r : ExecResponse),
      (∀ q ∈ qs, (exec q).isOk) →
      qs.getLast? = some qlast →
      exec qlast = .ok r →
      handleQueryLoop exec qs acc = (qs, .ok (some r)) := by
  intro qs
  induction qs with
  | nil => intro acc qlast r _ h _; simp at h
  | cons q rest ih =>
    intro acc qlast r hok hlast hr
    have hq : (exec q).isOk := hok q (by simp)
    cases hx : exec q with
    | error m => rw [hx] at hq; exact absurd hq (by simp [Except.isOk, Except.toBool])
    | ok r0 =>
      cases rest with
      | nil =>
        rw [List.getLast?_singleton, Option.some.injEq] at hlast
        subst hlast
        rw [hx] at hr
        obtain rfl := Except.ok.inj hr
        simp [handleQueryLoop, hx]
      | cons q2 rest2 =>
        rw [List.getLast?_cons_cons] at hlast
        have hrest := ih (some r0) qlast r
          (fun x hm => hok x (by simp [hm])) hlast hr
        generalize hg : q2 :: rest2 = rest at hrest ⊢
        simp [handleQueryLoop, hx, hrest]

/-- C7: "With query splitting enabled, for every request body that splits
into several non-empty statements, handleQuery processes the statements in
order; if some statement fails, no later statement is processed and the
first error is returned with no response body; if all succeed, the
returned JSON is the response of the last statement."  Confirmed: when the
first failing statement is at position `i`, the processed trace is exactly
the first `i + 1` split statements and the result is that error (no JSON
body); when every statement succeeds, the trace is the whole split list in
order and the result is the marshalled response of the last statement. -/
theorem handleQuery_splitting_batch
    (exec : String → Except String ExecResponse) (body : String) :
    (∀ (i : Nat) (q0 e : String),
      (SplitNonEmptyQueries body)[i]? = some q0 →
      (∀ qj ∈ (SplitNonEmptyQueries body).take i, (exec qj).isOk) →
      exec q0 = .error e →
      handleQuery true exec body = .error e
      ∧ handleQueryTrace true exec body
          = (SplitNonEmptyQueries body).take (i + 1))
    ∧ (∀ (qlast : String) (r : ExecResponse),
      (∀ q ∈ SplitNonEmptyQueries body, (exec q).isOk) →
      (SplitNonEmptyQueries body).getLast? = some qlast →
      exec qlast = .ok r →
      handleQuery true exec body = .ok (marshalResponse r)
      ∧ handleQueryTrace true exec body = SplitNonEmptyQueries body) := by
  constructor
  · intro i q0 e h hprev herr
    have hloop := handleQueryLoop_first_error exec
      (SplitNonEmptyQueries body) i q0 e none h hprev herr
    constructor
    · simp [handleQuery, hloop]
    · simp [handleQueryTrace, hloop]
  · intro qlast r hok hlast hr
    have hloop := handleQueryLoop_all_ok exec
      (SplitNonEmptyQueries body) none qlast r hok hlast hr
    constructor
    · simp [handleQuery, hloop, marshalOptResponse]
    · simp [handleQueryTrace, hloop]

/-- Witness for C7 on the three-statement body
`SELECT 1; BAD; SELECT 2` under an engine that fails exactly on `BAD`:
the batch stops after the second statement with that error, and with the
failing statement replaced the batch returns the last statement's
response. -/
theorem handleQuery_splitting_batch_witness :
    (handleQuery true
        (fun q => if q = "BAD" then .error "boom" else .ok ⟨[], none, 0⟩)
        "SELECT 1; BAD; SELECT 2" = .error "boom"
      ∧ handleQueryTrace true
          (fun q => if q = "BAD" then .error "boom" else .ok ⟨[], none, 0⟩)
          "SELECT 1; BAD; SELECT 2" = ["SELECT 1", "BAD"])
    ∧ (handleQuery true (fun _ => .ok ⟨[], none, 0⟩)
        "SELECT 1; SELECT 2" = .ok (marshalResponse ⟨[], none, 0⟩)
      ∧ handleQueryTrace true (fun _ => .ok ⟨[], none, 0⟩)
          "SELECT 1; SELECT 2" = SplitNonEmptyQueries "SELECT 1; SELECT 2") := by
  constructor
  · have h := (handleQuery_splitting_batch
        (fun q => if q = "BAD" then .error "boom" else .ok ⟨[], none, 0⟩)
        "SELECT 1; BAD; SELECT 2").1 1 "BAD" "boom"
        (by decide) (by decide) rfl
    exact ⟨h.1, h.2.trans (by decide)⟩
  · exact (handleQuery_splitting_batch (fun _ => .ok ⟨[], none, 0⟩)
      "SELECT 1; SELECT 2").2 "SELECT 2" ⟨[], none, 0⟩
      (by decide) (by decide) rfl

/-- C8 counterexample: "For every HTTP request to the request handler: an
OPTIONS request is answered with status 200 and an empty body, ..." is
false as stated.  The bearer-token check runs *before* the OPTIONS branch,
so with a token configured, an OPTIONS request without the matching
`Authorization` header is answered 401 with body `Unauthorized`, not 200
with an empty body. -/
theorem requestHandler_options_hits_auth_first :
    RequestHandler "secret" (fun _ _ => .ok Json.null)
        ⟨"OPTIONS", "", "/query", ""⟩
      = ⟨401, .text "Unauthorized\n"⟩
    ∧ (RequestHandler "secret" (fun _ _ => .ok Json.null)
        ⟨"OPTIONS", "", "/query", ""⟩).status ≠ 200 :=
  ⟨rfl, fun h => by simp [RequestHandler] at h⟩

/-- C8 amended: for every request that passes the bearer-token gate (no
token configured, or a matching `Authorization` header), an OPTIONS
request is answered with status 200 and an empty body, and a request whose
method is neither POST nor OPTIONS is answered with status 405; when a
token is configured and the header does not match, any request (OPTIONS
included) is answered 401. -/
theorem requestHandler_methods_after_auth (tok hdr path bd : String)
    (post : String → String → Except String Json)
    (hauth : tok = "" ∨ hdr = "Bearer " ++ tok) :
    RequestHandler tok post ⟨"OPTIONS", hdr, path, bd⟩ = ⟨200, .empty⟩
    ∧ (∀ m, m ≠ "POST" → m ≠ "OPTIONS" →
        RequestHandler tok post ⟨m, hdr, path, bd⟩
          = ⟨405, .text "Method not allowed\n"⟩)
    ∧ (∀ m, tok ≠ "" → hdr ≠ "Bearer " ++ tok →
        RequestHandler tok post ⟨m, hdr, path, bd⟩
          = ⟨401, .text "Unauthorized\n"⟩) := by
  have hno : ¬ (tok ≠ "" ∧ hdr ≠ "Bearer " ++ tok) := by
    rcases hauth with h | h
    · exact fun hc => hc.1 h
    · exact fun hc => hc.2 h
  refine ⟨?_, fun m hm hm2 => ?_, fun m ht hh => ?_⟩
  · simp [RequestHandler, hno]
  · simp only [RequestHandler, if_neg hno]
    rw [if_neg (by simpa using hm2), if_pos (by simpa using hm)]
  · simp [RequestHandler, if_pos (And.intro ht hh)]

/-- Witness for C8's amended statement with no token configured: OPTIONS
gets 200 with an empty body and DELETE gets 405. -/
theorem requestHandler_methods_after_auth_witness :
    RequestHandler "" (fun _ _ => .ok Json.null) ⟨"OPTIONS", "", "/query", ""⟩
      = ⟨200, .empty⟩
    ∧ RequestHandler "" (fun _ _ => .ok Json.null) ⟨"DELETE", "", "/query", ""⟩
      = ⟨405, .text "Method not allowed\n"⟩ := by
  have h := requestHandler_methods_after_auth "" "" "/query" ""
    (fun _ _ => .ok Json.null) (Or.inl rfl)
  exact ⟨h.1, h.2.1 "DELETE" (by decide) (by decide)⟩

/-- C10: "If the analytical engine rejects the submitted statement with an
error whose text is exactly \"empty query\" (as happens for an empty or
comment-only statement), ExecuteQuery does not propagate an error: it
returns a success response with zero rows and empty meta, so the request
is answered with HTTP 200 rather than 400."  Confirmed: the `empty query`
engine error is swallowed into a success response with empty meta and zero
rows (any other error text is propagated), and a POST `/query` request
whose statement the engine rejects this way is answered 200 with the
marshalled empty response, not 400. -/
theorem executeQuery_empty_query_http200 :
    ExecuteQuery (.error "empty query") = .ok ⟨[], none, 0⟩
    ∧ ExecuteQuery (.error "no such table")
        = .error "query error: no such table"
    ∧ RequestHandler ""
        (fun _ bd => handleQuery false
          (fun _ => ExecuteQuery (.error "empty query")) bd)
        ⟨"POST", "", "/query", "-- just a comment"⟩
      = ⟨200, .json (marshalResponse ⟨[], none, 0⟩)⟩ :=
  ⟨rfl, rfl, rfl⟩

end Icebase
